import Mathlib

/-!
Shallow embedding of `src/app.py` (a streamlit/pandas CO2 dashboard).

Tables are lists of records; pandas floating-point values are modelled as
rationals (`ℚ`); missing values (`NaN` produced by an unmatched left join)
are modelled with `Option`.

Pandas semantics embedded here, with the defaults the source uses:
* `DataFrame.drop_duplicates()` keeps the first occurrence of each row and
  preserves the order of the survivors (`dedupAux`/`dropDup`).
* `DataFrame.merge(..., how="left")` keeps every left row; a left row with
  several key matches on the right is repeated once per match, and an
  unmatched left row gets a missing value in the right-hand columns
  (`merge_datasets`).
* `groupby(...)` uses `sort=True`, so groups are emitted sorted by the group
  key in ascending order (multi-column keys lexicographically), and
  `dropna=True`, so rows whose key contains a missing value belong to no
  group (`get_top_emitters_with_geo` ignores rows with `continent = none`).
* `sort_values(..., ascending=False)` is modelled as a stable descending
  sort (`sortBy`): rows with equal values keep their incoming order.
* `.head(n)` is `List.take n`.

Python strings are compared by code point; we compare `String.data`
(lists of `Char`, ordered lexicographically by code point), which is the
same order and is kernel-computable.
-/

/-- One row of the emissions file: "Country Name", "Country Code", "Year",
"CO2 Per Capita (metric tons)". -/
structure EmissionRecord where
  country : String
  code : String
  year : Int
  value : ℚ
deriving DecidableEq

/-- One row of the geography table after projection to the two columns
"Continent_Name" and "Three_Letter_Country_Code". -/
structure GeoRecord where
  continent : String
  code : String
deriving DecidableEq

/-- One row of the raw geography file: the two columns the code keeps plus
the remaining columns, collapsed into one `extra` field. -/
structure RawGeoRow where
  continent : String
  code : String
  extra : String
deriving DecidableEq

/-- The column projection `countries[["Continent_Name", "Three_Letter_Country_Code"]]`. -/
def projGeo (r : RawGeoRow) : GeoRecord := ⟨r.continent, r.code⟩

/-- View a two-column geography table as a raw one (no extra columns). -/
def geoAsRaw (g : GeoRecord) : RawGeoRow := ⟨g.continent, g.code, ""⟩

/-- One row of the merged table: an emissions row extended with the
continent; `none` models the `NaN` of an unmatched left join. -/
structure MergedRecord where
  country : String
  code : String
  year : Int
  value : ℚ
  continent : Option String
deriving DecidableEq

/-- One output row of the plain aggregator `get_top_emitters`. -/
structure AggRow where
  country : String
  mean : ℚ
deriving DecidableEq

/-- One output row of the geo-aware aggregator `get_top_emitters_with_geo`. -/
structure GeoAggRow where
  country : String
  code : String
  continent : String
  mean : ℚ
deriving DecidableEq

/-! ### Pandas primitives -/

/-- Worker for `dropDup`: drop every row already seen, keep the first
occurrence of each new row. -/
def dedupAux {α : Type} [DecidableEq α] (seen : List α) : List α → List α
  | [] => []
  | x :: xs => if x ∈ seen then dedupAux seen xs else x :: dedupAux (x :: seen) xs

/-- `DataFrame.drop_duplicates()`: keep the first occurrence of each row,
preserving order. -/
def dropDup {α : Type} [DecidableEq α] (l : List α) : List α := dedupAux [] l

/-- Insert `x` into a list sorted by `le`, before the first element it is
`le`-related to (so an element inserted later never jumps ahead of an
earlier tie). -/
def insertSorted {α : Type} (le : α → α → Prop) [DecidableRel le] (x : α) :
    List α → List α
  | [] => [x]
  | y :: ys => if le x y then x :: y :: ys else y :: insertSorted le x ys

/-- Stable insertion sort by the total preorder `le`. -/
def sortBy {α : Type} (le : α → α → Prop) [DecidableRel le] : List α → List α
  | [] => []
  | x :: xs => insertSorted le x (sortBy le xs)

/-- Code-point order on Python strings (strict). -/
def strLt (s t : String) : Prop := s.data < t.data

/-- Code-point order on Python strings. -/
def strLe (s t : String) : Prop := s.data ≤ t.data

instance : DecidableRel strLt := fun s t => inferInstanceAs (Decidable (s.data < t.data))

instance : DecidableRel strLe := fun s t => inferInstanceAs (Decidable (s.data ≤ t.data))

/-- Ascending lexicographic order on the multi-column group key
`("Country Name", "Country Code", "Continent_Name")`, as `groupby` sorts it. -/
def geoKeyLe (k₁ k₂ : String × String × String) : Prop :=
  strLt k₁.1 k₂.1 ∨ (k₁.1 = k₂.1 ∧
    (strLt k₁.2.1 k₂.2.1 ∨ (k₁.2.1 = k₂.2.1 ∧ strLe k₁.2.2 k₂.2.2)))

instance : DecidableRel geoKeyLe := fun _ _ => by unfold geoKeyLe; infer_instance

/-- Descending order on plain aggregation rows, ties left in place. -/
def aggLe (x y : AggRow) : Prop := y.mean ≤ x.mean

instance : DecidableRel aggLe := fun x y => inferInstanceAs (Decidable (y.mean ≤ x.mean))

/-- Descending order on geo aggregation rows, ties left in place. -/
def geoAggLe (x y : GeoAggRow) : Prop := y.mean ≤ x.mean

instance : DecidableRel geoAggLe := fun x y => inferInstanceAs (Decidable (y.mean ≤ x.mean))

/-! ### Source functions -/

/-- `load_co2_data`: read the emissions file; on `FileNotFoundError`
(modelled as `none`) show an error and return an empty table. -/
def load_co2_data (file : Option (List EmissionRecord)) : List EmissionRecord :=
  file.getD []

/-- `load_geo_data`: read the geography file, project it to the two columns
and `drop_duplicates()`; on `FileNotFoundError` (modelled as `none`) show an
error and return an empty table. -/
def load_geo_data (file : Option (List RawGeoRow)) : List GeoRecord :=
  match file with
  | none => []
  | some rows => dropDup (rows.map projGeo)

/-- `merge_datasets`: pandas left merge of the emissions table with the
geography table on `"Country Code" == "Three_Letter_Country_Code"`. -/
def merge_datasets (df : List EmissionRecord) (geo : List GeoRecord) :
    List MergedRecord :=
  df.flatMap fun r =>
    let ms := geo.filter fun g => decide (g.code = r.code)
    if ms.isEmpty then [⟨r.country, r.code, r.year, r.value, none⟩]
    else ms.map fun g => ⟨r.country, r.code, r.year, r.value, some g.continent⟩

/-- The year filter `df[(df["Year"] >= start_year) & (df["Year"] <= end_year)]`
of `get_top_emitters`. -/
def filterYears (df : List EmissionRecord) (start_year end_year : Int) :
    List EmissionRecord :=
  df.filter fun r => decide (start_year ≤ r.year) && decide (r.year ≤ end_year)

/-- The same year filter applied to the merged table in
`get_top_emitters_with_geo`. -/
def filterYearsM (df : List MergedRecord) (start_year end_year : Int) :
    List MergedRecord :=
  df.filter fun r => decide (start_year ≤ r.year) && decide (r.year ≤ end_year)

/-- The group keys `groupby("Country Name")` emits for the filtered rows:
the distinct country names, sorted ascending (`sort=True`). -/
def groupKeys (rows : List EmissionRecord) : List String :=
  sortBy strLe (dropDup (rows.map (·.country)))

/-- The mean the grouping computes for one country: arithmetic mean of
"CO2 Per Capita (metric tons)" over the rows of that group. -/
def groupMean (rows : List EmissionRecord) (c : String) : ℚ :=
  let vs := (rows.filter fun r => decide (r.country = c)).map (·.value)
  vs.sum / (vs.length : ℚ)

/-- `get_top_emitters`: filter by year, group by country name, take the mean
per group, sort descending by mean, keep the first `n` rows. -/
def get_top_emitters (df : List EmissionRecord) (start_year end_year : Int)
    (n : Nat) : List AggRow :=
  let rows := filterYears df start_year end_year
  let grouped := (groupKeys rows).map fun c => AggRow.mk c (groupMean rows c)
  (sortBy aggLe grouped).take n

/-- The group key of a merged row under
`groupby(["Country Name", "Country Code", "Continent_Name"])`; a row whose
continent is missing belongs to no group (`dropna=True`). -/
def geoKey (r : MergedRecord) : Option (String × String × String) :=
  r.continent.map fun ct => (r.country, r.code, ct)

/-- The group keys the three-column grouping emits for the filtered rows:
the distinct keys of the rows that have one, sorted ascending. -/
def geoGroupKeys (rows : List MergedRecord) : List (String × String × String) :=
  sortBy geoKeyLe (dropDup (rows.filterMap geoKey))

/-- The mean of one three-column group. -/
def geoGroupMean (rows : List MergedRecord) (k : String × String × String) : ℚ :=
  let vs := (rows.filter fun r => decide (geoKey r = some k)).map (·.value)
  vs.sum / (vs.length : ℚ)

/-- `get_top_emitters_with_geo`: filter by year, group by
(country, code, continent), take the mean per group, sort descending by
mean, keep the first `n` rows. -/
def get_top_emitters_with_geo (df : List MergedRecord)
    (start_year end_year : Int) (n : Nat) : List GeoAggRow :=
  let rows := filterYearsM df start_year end_year
  let grouped := (geoGroupKeys rows).map fun k =>
    GeoAggRow.mk k.1 k.2.1 k.2.2 (geoGroupMean rows k)
  (sortBy geoAggLe grouped).take n

/-- What one render pass of `main` produces: either the single error message
(nothing else is rendered, no aggregator or chart adapter runs), or the full
page carrying the aggregated data each of the four charts is built from
plus the raw-row-count metric. -/
inductive RenderResult where
  | error : RenderResult
  | page (topChart : List AggRow) (mapChart continentChart choroplethChart : List GeoAggRow)
      (dataPoints : Nat) : RenderResult
deriving DecidableEq

/-- The render pass of `main` (Lean reserves the name `main`): load both tables, abort the render pass with one error if either
is empty, otherwise merge once and build the four charts from the
user-selected year range and country count. -/
def mainRender (co2File : Option (List EmissionRecord)) (geoFile : Option (List RawGeoRow))
    (year_range : Int × Int) (nb_countries : Nat) : RenderResult :=
  let df := load_co2_data co2File
  let geo := load_geo_data geoFile
  if df.isEmpty || geo.isEmpty then .error
  else
    let merged := merge_datasets df geo
    .page (get_top_emitters df year_range.1 year_range.2 nb_countries)
      (get_top_emitters_with_geo merged year_range.1 year_range.2 nb_countries)
      (get_top_emitters_with_geo merged year_range.1 year_range.2 nb_countries)
      (get_top_emitters_with_geo merged year_range.1 year_range.2 nb_countries)
      df.length

/-! ### Lemmas about `dedupAux` / `dropDup` -/

theorem mem_dedupAux {α : Type} [DecidableEq α] (seen : List α) (l : List α) (a : α) :
    a ∈ dedupAux seen l ↔ a ∈ l ∧ a ∉ seen := by
  induction l generalizing seen with
  | nil => simp [dedupAux]
  | cons x xs ih =>
    by_cases hx : x ∈ seen
    · simp only [dedupAux, if_pos hx, ih, List.mem_cons]
      constructor
      · rintro ⟨h1, h2⟩; exact ⟨Or.inr h1, h2⟩
      · rintro ⟨h1 | h1, h2⟩
        · exact absurd (h1 ▸ hx) h2
        · exact ⟨h1, h2⟩
    · simp only [dedupAux, if_neg hx, List.mem_cons, ih]
      constructor
      · rintro (rfl | ⟨h1, h2⟩)
        · exact ⟨Or.inl rfl, hx⟩
        · exact ⟨Or.inr h1, fun hs => h2 (Or.inr hs)⟩
      · rintro ⟨rfl | h1, h2⟩
        · exact Or.inl rfl
        · by_cases hax : a = x
          · exact Or.inl hax
          · exact Or.inr ⟨h1, fun hs => by
              rcases hs with h | h
              · exact hax h
              · exact h2 h⟩

theorem nodup_dedupAux {α : Type} [DecidableEq α] (seen : List α) (l : List α) :
    (dedupAux seen l).Nodup := by
  induction l generalizing seen with
  | nil => simp [dedupAux]
  | cons x xs ih =>
    by_cases hx : x ∈ seen
    · simpa [dedupAux, if_pos hx] using ih seen
    · rw [dedupAux, if_neg hx]
      refine List.Pairwise.cons ?_ (ih (x :: seen))
      intro b hb hbx
      exact ((mem_dedupAux (x :: seen) xs b).mp hb).2
        (by rw [← hbx]; exact List.mem_cons_self x seen)

theorem sublist_dedupAux {α : Type} [DecidableEq α] (seen : List α) (l : List α) :
    (dedupAux seen l).Sublist l := by
  induction l generalizing seen with
  | nil => simp [dedupAux]
  | cons x xs ih =>
    by_cases hx : x ∈ seen
    · simpa [dedupAux, if_pos hx] using (ih seen).trans (List.sublist_cons_self x xs)
    · simpa [dedupAux, if_neg hx] using List.Sublist.cons₂ x (ih (x :: seen))

theorem dedupAux_eq_self {α : Type} [DecidableEq α] (seen : List α) (l : List α)
    (hl : l.Nodup) (hs : ∀ a ∈ l, a ∉ seen) : dedupAux seen l = l := by
  induction l generalizing seen with
  | nil => rfl
  | cons x xs ih =>
    have hx : x ∉ seen := hs x (List.mem_cons_self x xs)
    rw [dedupAux, if_neg hx, ih (x :: seen) (List.Nodup.of_cons hl)]
    intro a ha
    rw [List.mem_cons]
    rintro (rfl | h)
    · exact (List.nodup_cons.mp hl).1 ha
    · exact hs a (List.mem_cons_of_mem _ ha) h

theorem pairwise_indexOf_dedupAux {α : Type} [DecidableEq α] (seen : List α) (l : List α) :
    (dedupAux seen l).Pairwise fun a b => l.indexOf a < l.indexOf b := by
  induction l generalizing seen with
  | nil => simp [dedupAux]
  | cons x xs ih =>
    have key : ∀ s b, b ∈ dedupAux s xs → b ∈ xs ∧ b ∉ s :=
      fun s b hb => (mem_dedupAux s xs b).mp hb
    by_cases hx : x ∈ seen
    · rw [dedupAux, if_pos hx]
      refine (ih seen).imp_of_mem ?_
      intro a b ha hb h
      have hax : a ≠ x := fun he => ((key seen a ha).2 (by rw [he]; exact hx))
      have hbx : b ≠ x := fun he => ((key seen b hb).2 (by rw [he]; exact hx))
      rw [List.indexOf_cons_ne _ (Ne.symm hax), List.indexOf_cons_ne _ (Ne.symm hbx)]
      exact Nat.succ_lt_succ h
    · rw [dedupAux, if_neg hx]
      refine List.Pairwise.cons ?_ ?_
      · intro b hb
        have hbx : b ≠ x := fun he =>
          (key (x :: seen) b hb).2 (by rw [he]; exact List.mem_cons_self x seen)
        rw [List.indexOf_cons_self, List.indexOf_cons_ne _ (Ne.symm hbx)]
        exact Nat.succ_pos _
      · refine (ih (x :: seen)).imp_of_mem ?_
        intro a b ha hb h
        have hax : a ≠ x := fun he =>
          (key (x :: seen) a ha).2 (by rw [he]; exact List.mem_cons_self x seen)
        have hbx : b ≠ x := fun he =>
          (key (x :: seen) b hb).2 (by rw [he]; exact List.mem_cons_self x seen)
        rw [List.indexOf_cons_ne _ (Ne.symm hax), List.indexOf_cons_ne _ (Ne.symm hbx)]
        exact Nat.succ_lt_succ h

theorem mem_dropDup {α : Type} [DecidableEq α] (l : List α) (a : α) :
    a ∈ dropDup l ↔ a ∈ l := by
  simp [dropDup, mem_dedupAux]

theorem nodup_dropDup {α : Type} [DecidableEq α] (l : List α) : (dropDup l).Nodup :=
  nodup_dedupAux [] l

theorem sublist_dropDup {α : Type} [DecidableEq α] (l : List α) : (dropDup l).Sublist l :=
  sublist_dedupAux [] l

theorem dropDup_idem {α : Type} [DecidableEq α] (l : List α) :
    dropDup (dropDup l) = dropDup l :=
  dedupAux_eq_self [] (dropDup l) (nodup_dropDup l) (by simp)

theorem pairwise_indexOf_dropDup {α : Type} [DecidableEq α] (l : List α) :
    (dropDup l).Pairwise fun a b => l.indexOf a < l.indexOf b :=
  pairwise_indexOf_dedupAux [] l

theorem toFinset_dropDup {α : Type} [DecidableEq α] (l : List α) :
    (dropDup l).toFinset = l.toFinset := by
  ext a; simp [List.mem_toFinset, mem_dropDup]

theorem length_dropDup {α : Type} [DecidableEq α] (l : List α) :
    (dropDup l).length = l.toFinset.card := by
  rw [← toFinset_dropDup, List.toFinset_card_of_nodup (nodup_dropDup l)]

/-! ### Lemmas about `insertSorted` / `sortBy` -/

theorem length_insertSorted {α : Type} (le : α → α → Prop) [DecidableRel le]
    (x : α) (l : List α) : (insertSorted le x l).length = l.length + 1 := by
  induction l with
  | nil => rfl
  | cons y ys ih =>
    by_cases h : le x y
    · simp [insertSorted, if_pos h]
    · simp [insertSorted, if_neg h, ih]

theorem perm_insertSorted {α : Type} (le : α → α → Prop) [DecidableRel le]
    (x : α) (l : List α) : (insertSorted le x l).Perm (x :: l) := by
  induction l with
  | nil => exact List.Perm.refl _
  | cons y ys ih =>
    by_cases h : le x y
    · rw [insertSorted, if_pos h]
    · rw [insertSorted, if_neg h]
      exact (ih.cons y).trans (List.Perm.swap x y ys)

theorem perm_sortBy {α : Type} (le : α → α → Prop) [DecidableRel le]
    (l : List α) : (sortBy le l).Perm l := by
  induction l with
  | nil => exact List.Perm.refl _
  | cons x xs ih =>
    exact (perm_insertSorted le x (sortBy le xs)).trans (ih.cons x)

theorem length_sortBy {α : Type} (le : α → α → Prop) [DecidableRel le]
    (l : List α) : (sortBy le l).length = l.length :=
  (perm_sortBy le l).length_eq

theorem mem_sortBy {α : Type} (le : α → α → Prop) [DecidableRel le]
    (l : List α) (a : α) : a ∈ sortBy le l ↔ a ∈ l :=
  (perm_sortBy le l).mem_iff

theorem pairwise_insertSorted {α : Type} (le : α → α → Prop) [DecidableRel le]
    {R : α → α → Prop} (hswap : ∀ a b, ¬ le a b → R b a) (x : α) {l : List α}
    (hl : l.Pairwise R) (hx : ∀ y ∈ l, R x y) :
    (insertSorted le x l).Pairwise R := by
  induction l with
  | nil => exact List.pairwise_singleton R x
  | cons y ys ih =>
    by_cases h : le x y
    · rw [insertSorted, if_pos h]
      exact List.Pairwise.cons hx hl
    · rw [insertSorted, if_neg h]
      rcases List.pairwise_cons.mp hl with ⟨hy, hys⟩
      refine List.Pairwise.cons ?_ (ih hys fun z hz => hx z (List.mem_cons_of_mem _ hz))
      intro z hz
      rcases List.mem_cons.mp (((perm_insertSorted le x ys).mem_iff).mp hz) with rfl | hzys
      · exact hswap _ y h
      · exact hy z hzys

theorem pairwise_sortBy {α : Type} (le : α → α → Prop) [DecidableRel le]
    {R : α → α → Prop} (hswap : ∀ a b, ¬ le a b → R b a) {l : List α}
    (hl : l.Pairwise R) : (sortBy le l).Pairwise R := by
  induction l with
  | nil => exact List.Pairwise.nil
  | cons x xs ih =>
    rcases List.pairwise_cons.mp hl with ⟨hx, hxs⟩
    exact pairwise_insertSorted le hswap x (ih hxs)
      fun y hy => hx y ((mem_sortBy le xs y).mp hy)

theorem sorted_sortBy {α : Type} (le : α → α → Prop) [DecidableRel le]
    (htotal : ∀ a b, le a b ∨ le b a) (htrans : ∀ a b c, le a b → le b c → le a c)
    (l : List α) : (sortBy le l).Pairwise le := by
  induction l with
  | nil => exact List.Pairwise.nil
  | cons x xs ih =>
    rw [sortBy]
    generalize hs : sortBy le xs = s at ih
    clear hs
    induction s with
    | nil => exact List.pairwise_singleton le x
    | cons y ys ihy =>
      by_cases h : le x y
      · rw [insertSorted, if_pos h]
        refine List.Pairwise.cons ?_ ih
        intro z hz
        rcases List.mem_cons.mp hz with rfl | hzys
        · exact h
        · exact htrans x y z h ((List.pairwise_cons.mp ih).1 z hzys)
      · rw [insertSorted, if_neg h]
        rcases List.pairwise_cons.mp ih with ⟨hy, hys⟩
        refine List.Pairwise.cons ?_ (ihy hys)
        intro z hz
        rcases List.mem_cons.mp (((perm_insertSorted le x ys).mem_iff).mp hz) with rfl | hzys
        · rcases htotal z y with hzy | hyz
          · exact absurd hzy h
          · exact hyz
        · exact hy z hzys

/-! ### The concrete orders are total and transitive -/

theorem strLe_total (s t : String) : strLe s t ∨ strLe t s := le_total s.data t.data

theorem strLe_trans (s t u : String) : strLe s t → strLe t u → strLe s u :=
  fun h1 h2 => le_trans h1 h2

theorem strLt_of_strLe_of_ne {s t : String} (h : strLe s t) (hne : s ≠ t) :
    strLt s t :=
  lt_of_le_of_ne h fun hd => hne (String.ext hd)

theorem strLt_asymm {s t : String} (h : strLt s t) : ¬ strLt t s :=
  lt_asymm (a := s.data) h

theorem strLt_trans {s t u : String} (h1 : strLt s t) (h2 : strLt t u) : strLt s u :=
  lt_trans h1 h2

theorem strLt_irrefl (s : String) : ¬ strLt s s := lt_irrefl s.data

/-- Strict version of the lexicographic group-key order. -/
def geoKeyLt (k₁ k₂ : String × String × String) : Prop := geoKeyLe k₁ k₂ ∧ k₁ ≠ k₂

theorem geoKeyLe_total (k₁ k₂ : String × String × String) :
    geoKeyLe k₁ k₂ ∨ geoKeyLe k₂ k₁ := by
  unfold geoKeyLe
  rcases lt_trichotomy k₁.1.data k₂.1.data with h1 | h1 | h1
  · exact Or.inl (Or.inl h1)
  · have e1 : k₁.1 = k₂.1 := String.ext h1
    rcases lt_trichotomy k₁.2.1.data k₂.2.1.data with h2 | h2 | h2
    · exact Or.inl (Or.inr ⟨e1, Or.inl h2⟩)
    · have e2 : k₁.2.1 = k₂.2.1 := String.ext h2
      rcases le_total k₁.2.2.data k₂.2.2.data with h3 | h3
      · exact Or.inl (Or.inr ⟨e1, Or.inr ⟨e2, h3⟩⟩)
      · exact Or.inr (Or.inr ⟨e1.symm, Or.inr ⟨e2.symm, h3⟩⟩)
    · exact Or.inr (Or.inr ⟨e1.symm, Or.inl h2⟩)
  · exact Or.inr (Or.inl h1)

theorem geoKeyLe_trans (k₁ k₂ k₃ : String × String × String) :
    geoKeyLe k₁ k₂ → geoKeyLe k₂ k₃ → geoKeyLe k₁ k₃ := by
  unfold geoKeyLe strLt strLe
  rintro (h1 | ⟨e1, h1⟩) (h2 | ⟨e2, h2⟩)
  · exact Or.inl (lt_trans h1 h2)
  · exact Or.inl (e2 ▸ h1)
  · exact Or.inl (e1 ▸ h2)
  · refine Or.inr ⟨e1.trans e2, ?_⟩
    rcases h1 with h1 | ⟨f1, h1⟩ <;> rcases h2 with h2 | ⟨f2, h2⟩
    · exact Or.inl (lt_trans h1 h2)
    · exact Or.inl (f2 ▸ h1)
    · exact Or.inl (f1 ▸ h2)
    · exact Or.inr ⟨f1.trans f2, le_trans h1 h2⟩

theorem geoKeyLt_of_geoKeyLe_of_ne {k₁ k₂ : String × String × String}
    (h : geoKeyLe k₁ k₂) (hne : k₁ ≠ k₂) : geoKeyLt k₁ k₂ := ⟨h, hne⟩

theorem aggLe_total (x y : AggRow) : aggLe x y ∨ aggLe y x := (le_total y.mean x.mean).imp id id

theorem aggLe_trans (x y z : AggRow) : aggLe x y → aggLe y z → aggLe x z :=
  fun h1 h2 => le_trans h2 h1

theorem geoAggLe_total (x y : GeoAggRow) : geoAggLe x y ∨ geoAggLe y x :=
  (le_total y.mean x.mean).imp id id

theorem geoAggLe_trans (x y z : GeoAggRow) : geoAggLe x y → geoAggLe y z → geoAggLe x z :=
  fun h1 h2 => le_trans h2 h1

/-! ### Pipeline lemmas for the two aggregators -/

theorem get_top_emitters_eq (df : List EmissionRecord) (a b : Int) (n : Nat) :
    get_top_emitters df a b n =
      (sortBy aggLe ((groupKeys (filterYears df a b)).map
        fun c => AggRow.mk c (groupMean (filterYears df a b) c))).take n := rfl

theorem get_top_emitters_with_geo_eq (df : List MergedRecord) (a b : Int) (n : Nat) :
    get_top_emitters_with_geo df a b n =
      (sortBy geoAggLe ((geoGroupKeys (filterYearsM df a b)).map
        fun k => GeoAggRow.mk k.1 k.2.1 k.2.2 (geoGroupMean (filterYearsM df a b) k))).take n := rfl

theorem mem_get_top_emitters {df : List EmissionRecord} {a b : Int} {n : Nat}
    {x : AggRow} (hx : x ∈ get_top_emitters df a b n) :
    x.country ∈ dropDup ((filterYears df a b).map (·.country)) ∧
      x.mean = groupMean (filterYears df a b) x.country := by
  rw [get_top_emitters_eq] at hx
  have hx1 := (List.take_sublist n _).subset hx
  rw [mem_sortBy] at hx1
  rcases List.mem_map.mp hx1 with ⟨c, hc, rfl⟩
  rw [groupKeys, mem_sortBy] at hc
  exact ⟨hc, rfl⟩

theorem mem_get_top_emitters_with_geo {df : List MergedRecord} {a b : Int} {n : Nat}
    {x : GeoAggRow} (hx : x ∈ get_top_emitters_with_geo df a b n) :
    (x.country, x.code, x.continent) ∈ dropDup ((filterYearsM df a b).filterMap geoKey) ∧
      x.mean = geoGroupMean (filterYearsM df a b) (x.country, x.code, x.continent) := by
  rw [get_top_emitters_with_geo_eq] at hx
  have hx1 := (List.take_sublist n _).subset hx
  rw [mem_sortBy] at hx1
  rcases List.mem_map.mp hx1 with ⟨k, hk, rfl⟩
  rw [geoGroupKeys, mem_sortBy] at hk
  exact ⟨hk, rfl⟩

theorem length_get_top_emitters (df : List EmissionRecord) (a b : Int) (n : Nat) :
    (get_top_emitters df a b n).length =
      min n ((filterYears df a b).map (·.country)).toFinset.card := by
  rw [get_top_emitters_eq, List.length_take, length_sortBy, List.length_map,
    groupKeys, length_sortBy, length_dropDup]

theorem length_get_top_emitters_with_geo (df : List MergedRecord) (a b : Int) (n : Nat) :
    (get_top_emitters_with_geo df a b n).length =
      min n ((filterYearsM df a b).filterMap geoKey).toFinset.card := by
  rw [get_top_emitters_with_geo_eq, List.length_take, length_sortBy, List.length_map,
    geoGroupKeys, length_sortBy, length_dropDup]

theorem sorted_get_top_emitters (df : List EmissionRecord) (a b : Int) (n : Nat) :
    (get_top_emitters df a b n).Pairwise fun x y => y.mean ≤ x.mean := by
  rw [get_top_emitters_eq]
  exact List.Pairwise.sublist (List.take_sublist n _)
    (sorted_sortBy aggLe aggLe_total aggLe_trans _)

theorem sorted_get_top_emitters_with_geo (df : List MergedRecord) (a b : Int) (n : Nat) :
    (get_top_emitters_with_geo df a b n).Pairwise fun x y => y.mean ≤ x.mean := by
  rw [get_top_emitters_with_geo_eq]
  exact List.Pairwise.sublist (List.take_sublist n _)
    (sorted_sortBy geoAggLe geoAggLe_total geoAggLe_trans _)

theorem ties_get_top_emitters (df : List EmissionRecord) (a b : Int) (n : Nat) :
    (get_top_emitters df a b n).Pairwise
      fun x y => x.mean = y.mean → strLt x.country y.country := by
  rw [get_top_emitters_eq]
  refine List.Pairwise.sublist (List.take_sublist n _) (pairwise_sortBy aggLe ?_ ?_)
  · intro x y hxy he
    exact absurd (le_of_eq he) hxy
  · rw [List.pairwise_map]
    have hkeys : (groupKeys (filterYears df a b)).Pairwise strLt := by
      have hs := sorted_sortBy strLe strLe_total strLe_trans
        (dropDup ((filterYears df a b).map (·.country)))
      have hn : (groupKeys (filterYears df a b)).Nodup :=
        (perm_sortBy strLe _).symm.nodup (nodup_dropDup _)
      exact (hs.and hn).imp fun h => strLt_of_strLe_of_ne h.1 h.2
    refine List.Pairwise.imp ?_ hkeys
    intro a c h _
    exact h

theorem ties_get_top_emitters_with_geo (df : List MergedRecord) (a b : Int) (n : Nat) :
    (get_top_emitters_with_geo df a b n).Pairwise
      fun x y => x.mean = y.mean →
        geoKeyLt (x.country, x.code, x.continent) (y.country, y.code, y.continent) := by
  rw [get_top_emitters_with_geo_eq]
  refine List.Pairwise.sublist (List.take_sublist n _) (pairwise_sortBy geoAggLe ?_ ?_)
  · intro x y hxy he
    exact absurd (le_of_eq he) hxy
  · rw [List.pairwise_map]
    have hkeys : (geoGroupKeys (filterYearsM df a b)).Pairwise geoKeyLt := by
      have hs := sorted_sortBy geoKeyLe geoKeyLe_total geoKeyLe_trans
        (dropDup ((filterYearsM df a b).filterMap geoKey))
      have hn : (geoGroupKeys (filterYearsM df a b)).Nodup :=
        (perm_sortBy geoKeyLe _).symm.nodup (nodup_dropDup _)
      exact (hs.and hn).imp fun h => geoKeyLt_of_geoKeyLe_of_ne h.1 h.2
    refine List.Pairwise.imp ?_ hkeys
    intro k k₂ h _
    exact h

/-! ### Lemmas about `merge_datasets` -/

/-- The continent the left join attaches to a country code: the continent of
the first geography row with that code, `none` when there is none. -/
def matchCont (geo : List GeoRecord) (c : String) : Option String :=
  (geo.find? fun g => decide (g.code = c)).map (·.continent)

theorem filter_code_of_nodup {geo : List GeoRecord}
    (hnd : (geo.map GeoRecord.code).Nodup) (c : String) :
    geo.filter (fun g => decide (g.code = c)) =
      match geo.find? (fun g => decide (g.code = c)) with
      | none => []
      | some g => [g] := by
  induction geo with
  | nil => rfl
  | cons g gs ih =>
    obtain ⟨hg, hgs⟩ : (∀ x ∈ gs, ¬ x.code = g.code) ∧ (gs.map GeoRecord.code).Nodup := by
      simpa using hnd
    by_cases h : g.code = c
    · rw [List.filter_cons_of_pos (by simpa using h),
        List.find?_cons_of_pos _ (by simpa using h)]
      have : gs.filter (fun g' => decide (g'.code = c)) = [] := by
        rw [List.filter_eq_nil_iff]
        intro g' hg'
        simp only [decide_eq_true_eq]
        intro hc
        exact hg g' hg' (by rw [hc, h])
      rw [this]
    · rw [List.filter_cons_of_neg (by simpa using h),
        List.find?_cons_of_neg _ (by simpa using h)]
      exact ih hgs

theorem merge_eq_map_of_nodup {df : List EmissionRecord} {geo : List GeoRecord}
    (hnd : (geo.map GeoRecord.code).Nodup) :
    merge_datasets df geo =
      df.map fun r => ⟨r.country, r.code, r.year, r.value, matchCont geo r.code⟩ := by
  induction df with
  | nil => rfl
  | cons r rs ih =>
    rw [merge_datasets, List.flatMap_cons, List.map_cons, ← merge_datasets, ih]
    simp only [filter_code_of_nodup hnd r.code, matchCont]
    rcases hf : geo.find? fun g => decide (g.code = r.code) with _ | g <;> simp [hf]

theorem length_merge_of_nodup {df : List EmissionRecord} {geo : List GeoRecord}
    (hnd : (geo.map GeoRecord.code).Nodup) :
    (merge_datasets df geo).length = df.length := by
  rw [merge_eq_map_of_nodup hnd, List.length_map]

/-! ### The three-column grouping ignores rows with a missing continent -/

theorem filterMap_geoKey_filter (rows : List MergedRecord) :
    (rows.filter fun r => r.continent.isSome).filterMap geoKey =
      rows.filterMap geoKey := by
  induction rows with
  | nil => rfl
  | cons r rs ih =>
    rcases hr : r.continent with _ | ct
    · rw [List.filter_cons_of_neg (by simp [hr]), ih,
        List.filterMap_cons_none (by simp [geoKey, hr])]
    · rw [List.filter_cons_of_pos (by simp [hr]), List.filterMap_cons, List.filterMap_cons]
      simp only [geoKey, hr, Option.map_some]
      rw [ih]

theorem filter_geoKey_eq_filter (rows : List MergedRecord) (k : String × String × String) :
    (rows.filter fun r => r.continent.isSome).filter
        (fun r => decide (geoKey r = some k)) =
      rows.filter fun r => decide (geoKey r = some k) := by
  rw [List.filter_filter]
  refine List.filter_congr ?_
  intro r _
  rcases hr : r.continent with _ | ct
  · simp [geoKey, hr]
  · simp [geoKey, hr]

theorem geoGroupMean_filter (rows : List MergedRecord) (k : String × String × String) :
    geoGroupMean (rows.filter fun r => r.continent.isSome) k = geoGroupMean rows k := by
  unfold geoGroupMean
  rw [filter_geoKey_eq_filter]

theorem filterYearsM_filter_comm (df : List MergedRecord) (a b : Int)
    (p : MergedRecord → Bool) :
    filterYearsM (df.filter p) a b = (filterYearsM df a b).filter p := by
  unfold filterYearsM
  rw [List.filter_comm]

theorem get_top_emitters_with_geo_ignores_missing (df : List MergedRecord)
    (a b : Int) (n : Nat) :
    get_top_emitters_with_geo (df.filter fun r => r.continent.isSome) a b n =
      get_top_emitters_with_geo df a b n := by
  rw [get_top_emitters_with_geo_eq, get_top_emitters_with_geo_eq,
    filterYearsM_filter_comm]
  have hkeys : geoGroupKeys ((filterYearsM df a b).filter fun r => r.continent.isSome) =
      geoGroupKeys (filterYearsM df a b) := by
    unfold geoGroupKeys
    rw [filterMap_geoKey_filter]
  rw [hkeys]
  congr 2
  refine List.map_congr_left ?_
  intro k _
  rw [geoGroupMean_filter]

/-! ### Relating the two aggregators through the merge -/

/-- What the left join makes of one emissions row when the geography codes
are unique. -/
def mergeRow (geo : List GeoRecord) (r : EmissionRecord) : MergedRecord :=
  ⟨r.country, r.code, r.year, r.value, matchCont geo r.code⟩

theorem merge_eq_map_mergeRow {df : List EmissionRecord} {geo : List GeoRecord}
    (hnd : (geo.map GeoRecord.code).Nodup) :
    merge_datasets df geo = df.map (mergeRow geo) :=
  merge_eq_map_of_nodup hnd

theorem filterYearsM_map_mergeRow (geo : List GeoRecord) (df : List EmissionRecord)
    (a b : Int) :
    filterYearsM (df.map (mergeRow geo)) a b = (filterYears df a b).map (mergeRow geo) := by
  unfold filterYearsM filterYears
  rw [List.filter_map]
  rfl

theorem geoKey_mergeRow (geo : List GeoRecord) (r : EmissionRecord) :
    geoKey (mergeRow geo r) =
      (matchCont geo r.code).map fun ct => (r.country, r.code, ct) := rfl

theorem geoKey_mergeRow_eq_some {geo : List GeoRecord} {r : EmissionRecord}
    {k : String × String × String} :
    geoKey (mergeRow geo r) = some k ↔
      r.country = k.1 ∧ r.code = k.2.1 ∧ matchCont geo r.code = some k.2.2 := by
  rcases k with ⟨k1, k2, k3⟩
  rcases hmc : matchCont geo r.code with _ | ct <;>
    rw [geoKey_mergeRow, hmc] <;> simp [and_assoc]

theorem mem_filterMap_geoKey_map_mergeRow {geo : List GeoRecord}
    {rows : List EmissionRecord} {k : String × String × String} :
    k ∈ (rows.map (mergeRow geo)).filterMap geoKey ↔
      ∃ r ∈ rows, r.country = k.1 ∧ r.code = k.2.1 ∧
        matchCont geo r.code = some k.2.2 := by
  rw [List.filterMap_map, List.mem_filterMap]
  constructor
  · rintro ⟨r, hr, hk⟩
    exact ⟨r, hr, geoKey_mergeRow_eq_some.mp hk⟩
  · rintro ⟨r, hr, hk⟩
    exact ⟨r, hr, geoKey_mergeRow_eq_some.mpr hk⟩

theorem geoGroupMean_map_mergeRow {geo : List GeoRecord}
    {rows : List EmissionRecord} {k : String × String × String}
    (hc2 : ∀ r ∈ rows, r.country = k.1 →
      r.code = k.2.1 ∧ matchCont geo r.code = some k.2.2) :
    geoGroupMean (rows.map (mergeRow geo)) k = groupMean rows k.1 := by
  unfold geoGroupMean groupMean
  rw [List.filter_map]
  have hcong : rows.filter ((fun r => decide (geoKey r = some k)) ∘ mergeRow geo) =
      rows.filter fun r => decide (r.country = k.1) := by
    refine List.filter_congr ?_
    intro r hr
    simp only [Function.comp_apply, decide_eq_decide]
    rw [geoKey_mergeRow_eq_some]
    constructor
    · rintro ⟨h1, -, -⟩; exact h1
    · intro h1
      rcases hc2 r hr h1 with ⟨h2, h3⟩
      exact ⟨h1, h2, h3⟩
  rw [hcong, List.map_map]
  rfl

/-! ### Empty year ranges -/

theorem filterYears_eq_nil {df : List EmissionRecord} {a b : Int} (h : b < a) :
    filterYears df a b = [] := by
  rw [filterYears, List.filter_eq_nil_iff]
  intro r _
  simp only [Bool.and_eq_true, decide_eq_true_eq, not_and]
  intro h1 h2
  exact absurd (le_trans h1 h2) (not_le.mpr h)

theorem filterYearsM_eq_nil {df : List MergedRecord} {a b : Int} (h : b < a) :
    filterYearsM df a b = [] := by
  rw [filterYearsM, List.filter_eq_nil_iff]
  intro r _
  simp only [Bool.and_eq_true, decide_eq_true_eq, not_and]
  intro h1 h2
  exact absurd (le_trans h1 h2) (not_le.mpr h)

theorem get_top_emitters_of_nil (df : List EmissionRecord) (a b : Int) (n : Nat)
    (h : filterYears df a b = []) : get_top_emitters df a b n = [] := by
  rw [get_top_emitters_eq, h]
  show List.take n (sortBy aggLe (List.map _ (groupKeys []))) = []
  rw [show groupKeys [] = [] from rfl, List.map_nil, show sortBy aggLe [] = [] from rfl,
    List.take_nil]

theorem get_top_emitters_with_geo_of_nil (df : List MergedRecord) (a b : Int) (n : Nat)
    (h : filterYearsM df a b = []) : get_top_emitters_with_geo df a b n = [] := by
  rw [get_top_emitters_with_geo_eq, h]
  show List.take n (sortBy geoAggLe (List.map _ (geoGroupKeys []))) = []
  rw [show geoGroupKeys [] = [] from rfl, List.map_nil, show sortBy geoAggLe [] = [] from rfl,
    List.take_nil]

theorem take_singleton_of_pos {α : Type} {n : Nat} (x : α) (h : 1 ≤ n) :
    List.take n [x] = [x] := by
  rcases n with _ | m
  · exact absurd h (by decide)
  · simp

/-! ### Claims -/

/-- C1, counterexample: the left join does not always preserve the row count.
With one emissions row for code "AAA" and a geography table holding two rows
with code "AAA" (two continents for one code survive the pair-wise
deduplication), the pandas left merge emits one output row per match: 2 rows
from 1 emissions row. -/
theorem C1_counterexample :
    (merge_datasets [⟨"A", "AAA", 2008, 1⟩]
        [⟨"Asia", "AAA"⟩, ⟨"Europe", "AAA"⟩]).length = 2 ∧
      ([(⟨"A", "AAA", 2008, 1⟩ : EmissionRecord)]).length = 1 := by
  decide

/-- C1, amended: when the geography table has at most one row per country
code, the left join returns exactly one output row per emissions row (so the
row count is preserved), and that row carries the continent of the matching
geography row, or no continent when the code has no match. -/
theorem C1_merge_row_count (df : List EmissionRecord) (geo : List GeoRecord)
    (hnd : (geo.map GeoRecord.code).Nodup) :
    (merge_datasets df geo).length = df.length ∧
      merge_datasets df geo =
        df.map fun r => ⟨r.country, r.code, r.year, r.value, matchCont geo r.code⟩ :=
  ⟨length_merge_of_nodup hnd, merge_eq_map_of_nodup hnd⟩

/-- Witness for C1: the amended statement applied to a one-row emissions
table with a unique-code geography table, and with an empty geography
table. -/
theorem C1_witness :
    (([⟨"Asia", "AAA"⟩] : List GeoRecord).map GeoRecord.code).Nodup ∧
      (merge_datasets [⟨"A", "AAA", 2008, 1⟩] [⟨"Asia", "AAA"⟩]).length =
        ([(⟨"A", "AAA", 2008, 1⟩ : EmissionRecord)]).length ∧
      (merge_datasets [⟨"A", "AAA", 2008, 1⟩] ([] : List GeoRecord)).length =
        ([(⟨"A", "AAA", 2008, 1⟩ : EmissionRecord)]).length :=
  ⟨by decide,
    (C1_merge_row_count [⟨"A", "AAA", 2008, 1⟩] [⟨"Asia", "AAA"⟩] (by decide)).1,
    (C1_merge_row_count [⟨"A", "AAA", 2008, 1⟩] [] (by decide)).1⟩

/-- C2: both aggregators return exactly `min n g` rows, where `g` is the
number of groups with at least one row in the year range (distinct country
names for the plain aggregator, distinct non-missing (country, code,
continent) keys for the geo-aware one); when the start year exceeds the end
year both return the empty table. -/
theorem C2_row_counts (df : List EmissionRecord) (mdf : List MergedRecord)
    (a b : Int) (n : Nat) :
    (get_top_emitters df a b n).length =
        min n ((filterYears df a b).map (·.country)).toFinset.card ∧
      (get_top_emitters_with_geo mdf a b n).length =
        min n ((filterYearsM mdf a b).filterMap geoKey).toFinset.card ∧
      (b < a → get_top_emitters df a b n = [] ∧
        get_top_emitters_with_geo mdf a b n = []) :=
  ⟨length_get_top_emitters df a b n, length_get_top_emitters_with_geo mdf a b n,
    fun h => ⟨get_top_emitters_of_nil df a b n (filterYears_eq_nil h),
      get_top_emitters_with_geo_of_nil mdf a b n (filterYearsM_eq_nil h)⟩⟩

/-- Witness for C2: an inverted year range on a concrete one-row table
yields the empty result. -/
theorem C2_witness :
    (2008 : Int) < 2009 ∧
      get_top_emitters [⟨"A", "AAA", 2008, 1⟩] 2009 2008 5 = [] ∧
      get_top_emitters_with_geo [] 2009 2008 5 = [] :=
  ⟨by decide,
    ((C2_row_counts [⟨"A", "AAA", 2008, 1⟩] [] 2009 2008 5).2.2 (by decide)).1,
    ((C2_row_counts [⟨"A", "AAA", 2008, 1⟩] [] 2009 2008 5).2.2 (by decide)).2⟩

/-- C5: the geo deduplication step is idempotent: running `load_geo_data`
(projection to the two columns plus `drop_duplicates`) on its own output
returns that output unchanged. -/
theorem C5_dedup_idempotent (raw : List RawGeoRow) :
    load_geo_data (some ((load_geo_data (some raw)).map geoAsRaw)) =
      load_geo_data (some raw) := by
  show dropDup (((dropDup (raw.map projGeo)).map geoAsRaw).map projGeo) =
    dropDup (raw.map projGeo)
  rw [List.map_map]
  have h : (dropDup (raw.map projGeo)).map (projGeo ∘ geoAsRaw) =
      dropDup (raw.map projGeo) := by
    refine Eq.trans (List.map_congr_left ?_) (List.map_id _)
    intro g _
    rfl
  rw [h, dropDup_idem]

/-- C6: the deduplicated geography table (its rows are `GeoRecord`s, i.e.
exactly the two kept columns) contains each distinct (continent, code) pair
of the projected input exactly once, ordered by the position of its first
occurrence in the input; the duplicate-pair scenario collapses to one row. -/
theorem C6_dedup_first_occurrence (raw : List RawGeoRow) :
    (∀ g : GeoRecord, (load_geo_data (some raw)).count g =
        if g ∈ raw.map projGeo then 1 else 0) ∧
      (load_geo_data (some raw)).Pairwise
        (fun g₁ g₂ => (raw.map projGeo).indexOf g₁ < (raw.map projGeo).indexOf g₂) ∧
      load_geo_data (some [⟨"Asia", "AAA", ""⟩, ⟨"Asia", "AAA", ""⟩]) =
        [⟨"Asia", "AAA"⟩] := by
  refine ⟨?_, pairwise_indexOf_dropDup _, by decide⟩
  intro g
  by_cases hg : g ∈ raw.map projGeo
  · rw [if_pos hg]
    exact List.count_eq_one_of_mem (nodup_dropDup _) ((mem_dropDup _ g).mpr hg)
  · rw [if_neg hg]
    exact List.count_eq_zero.mpr fun hc => hg ((mem_dropDup _ g).mp hc)

/-- C7: a missing input file makes the corresponding loader return the empty
table, and one render pass of `main` produces the single error outcome
(which carries no aggregated data: no aggregator output and no chart is part
of it) exactly when either loaded table is empty. -/
theorem C7_missing_file_aborts :
    load_co2_data none = [] ∧ load_geo_data none = [] ∧
      ∀ (c : Option (List EmissionRecord)) (g : Option (List RawGeoRow))
        (yr : Int × Int) (nb : Nat),
        mainRender c g yr nb = RenderResult.error ↔
          (load_co2_data c = [] ∨ load_geo_data g = []) := by
  refine ⟨rfl, rfl, ?_⟩
  intro c g yr nb
  simp only [mainRender]
  split
  case isTrue h =>
    simp only [Bool.or_eq_true, List.isEmpty_iff] at h
    simpa using h
  case isFalse h =>
    simp only [Bool.or_eq_true, List.isEmpty_iff] at h
    simp [h]

/-- C8: when exactly one row survives the year filter, the single reported
group mean is that row's per-capita value. -/
theorem C8_single_row_mean (df : List EmissionRecord) (a b : Int) (n : Nat)
    (r : EmissionRecord) (hf : filterYears df a b = [r]) (hn : 1 ≤ n) :
    get_top_emitters df a b n = [⟨r.country, r.value⟩] := by
  rw [get_top_emitters_eq, hf]
  rw [show groupKeys [r] = [r.country] from rfl]
  rw [List.map_cons, List.map_nil]
  have hm : groupMean [r] r.country = r.value := by
    unfold groupMean
    rw [List.filter_cons_of_pos (by simp), List.filter_nil]
    simp
  rw [hm]
  rw [show sortBy aggLe [AggRow.mk r.country r.value] = [⟨r.country, r.value⟩] from rfl]
  exact take_singleton_of_pos _ hn

/-- Witness for C8: a one-row table over its own year gives that row's value
as the one reported mean. -/
theorem C8_witness :
    filterYears [⟨"A", "AAA", 2008, 7⟩] 2008 2008 = [⟨"A", "AAA", 2008, 7⟩] ∧
      (1 : Nat) ≤ 1 ∧
      get_top_emitters [⟨"A", "AAA", 2008, 7⟩] 2008 2008 1 = [⟨"A", 7⟩] :=
  ⟨rfl, by decide,
    C8_single_row_mean [⟨"A", "AAA", 2008, 7⟩] 2008 2008 1 ⟨"A", "AAA", 2008, 7⟩
      rfl (by decide)⟩

/-- Three one-row groups, all with mean 1, whose first-seen order B, C, A
differs from the alphabetical order the grouping emits. -/
def exC3df : List EmissionRecord :=
  [⟨"B", "BBB", 2008, 1⟩, ⟨"C", "CCC", 2008, 1⟩, ⟨"A", "AAA", 2008, 1⟩]

/-- C3, counterexample: with three groups of equal mean 1 whose first-seen
order is B, C, A, the output comes back A, B, C: `groupby(sort=True)` emits
groups sorted by key, so equal-mean rows are ordered by ascending group key,
not by first-seen group order. -/
theorem C3_counterexample :
    dropDup ((filterYears exC3df 2008 2008).map (·.country)) = ["B", "C", "A"] ∧
      (∀ x ∈ get_top_emitters exC3df 2008 2008 3, x.mean = 1) ∧
      (get_top_emitters exC3df 2008 2008 3).map (·.country) = ["A", "B", "C"] ∧
      (["A", "B", "C"] : List String) ≠ ["B", "C", "A"] := by
  have hf : filterYears exC3df 2008 2008 = exC3df := rfl
  have hk : groupKeys exC3df = ["A", "B", "C"] := rfl
  have hmA : groupMean exC3df "A" = 1 := by
    unfold groupMean
    rw [show exC3df.filter (fun r => decide (r.country = "A")) =
      [⟨"A", "AAA", 2008, 1⟩] from rfl]
    norm_num
  have hmB : groupMean exC3df "B" = 1 := by
    unfold groupMean
    rw [show exC3df.filter (fun r => decide (r.country = "B")) =
      [⟨"B", "BBB", 2008, 1⟩] from rfl]
    norm_num
  have hmC : groupMean exC3df "C" = 1 := by
    unfold groupMean
    rw [show exC3df.filter (fun r => decide (r.country = "C")) =
      [⟨"C", "CCC", 2008, 1⟩] from rfl]
    norm_num
  have hout : get_top_emitters exC3df 2008 2008 3 =
      [⟨"A", 1⟩, ⟨"B", 1⟩, ⟨"C", 1⟩] := by
    rw [get_top_emitters_eq, hf, hk, List.map_cons, List.map_cons, List.map_cons,
      List.map_nil, hmA, hmB, hmC]
    rfl
  refine ⟨rfl, ?_, ?_, by decide⟩
  · intro x hx
    rw [hout] at hx
    simp only [List.mem_cons, List.not_mem_nil, or_false] at hx
    rcases hx with rfl | rfl | rfl <;> rfl
  · rw [hout]
    rfl

/-- C3, amended: both aggregators emit rows sorted by mean descending, and
rows with equal means appear in ascending group-key order (the order
`groupby(sort=True)` hands to the stable value sort), not in first-seen
group order. -/
theorem C3_sorted_ties (df : List EmissionRecord) (mdf : List MergedRecord)
    (a b : Int) (n : Nat) :
    (get_top_emitters df a b n).Pairwise (fun x y => y.mean ≤ x.mean) ∧
      (get_top_emitters df a b n).Pairwise
        (fun x y => x.mean = y.mean → strLt x.country y.country) ∧
      (get_top_emitters_with_geo mdf a b n).Pairwise (fun x y => y.mean ≤ x.mean) ∧
      (get_top_emitters_with_geo mdf a b n).Pairwise
        (fun x y => x.mean = y.mean →
          geoKeyLt (x.country, x.code, x.continent) (y.country, y.code, y.continent)) :=
  ⟨sorted_get_top_emitters df a b n, ties_get_top_emitters df a b n,
    sorted_get_top_emitters_with_geo mdf a b n, ties_get_top_emitters_with_geo mdf a b n⟩

/-- The emissions rows of the worked scenario: A has rows for 2008 and 2009
averaging 2, B has one 2008 row of value 5. -/
def exC4df : List EmissionRecord :=
  [⟨"A", "AAA", 2008, 1⟩, ⟨"A", "AAA", 2009, 3⟩, ⟨"B", "BBB", 2008, 5⟩]

/-- C4: on the worked scenario with range (2008, 2009) and N = 2 the plain
aggregator returns exactly B with mean 5 then A with mean 2. -/
theorem C4_scenario :
    get_top_emitters exC4df 2008 2009 2 = [⟨"B", 5⟩, ⟨"A", 2⟩] := by
  have hf : filterYears exC4df 2008 2009 = exC4df := rfl
  have hk : groupKeys exC4df = ["A", "B"] := rfl
  have hmA : groupMean exC4df "A" = 2 := by
    unfold groupMean
    rw [show exC4df.filter (fun r => decide (r.country = "A")) =
      [⟨"A", "AAA", 2008, 1⟩, ⟨"A", "AAA", 2009, 3⟩] from rfl]
    norm_num
  have hmB : groupMean exC4df "B" = 5 := by
    unfold groupMean
    rw [show exC4df.filter (fun r => decide (r.country = "B")) =
      [⟨"B", "BBB", 2008, 5⟩] from rfl]
    norm_num
  rw [get_top_emitters_eq, hf, hk, List.map_cons, List.map_cons, List.map_nil, hmA, hmB]
  rfl

theorem mem_geoGroupKeys {rows : List MergedRecord} {k : String × String × String} :
    k ∈ geoGroupKeys rows ↔ k ∈ rows.filterMap geoKey := by
  unfold geoGroupKeys
  rw [mem_sortBy, mem_dropDup]

/-- A merged table where country X (rank-1 mean 100) has no geography match
and country A (mean 1) has one. -/
def exC9m : List MergedRecord :=
  [⟨"X", "XXX", 2008, 100, none⟩, ⟨"A", "AAA", 2008, 1, some "Asia"⟩]

/-- The emissions rows underlying `exC9m`. -/
def exC9df : List EmissionRecord :=
  [⟨"X", "XXX", 2008, 100⟩, ⟨"A", "AAA", 2008, 1⟩]

/-- C9: the geo-aware aggregator is unchanged when all rows with a missing
continent are deleted first (such rows belong to no (country, code,
continent) group, by `groupby`'s NaN-key dropping), so a country with no
geography match never reaches its output even when its mean tops the
ranking; the plain aggregator still ranks such a country (here X, mean 100,
first). -/
theorem C9_missing_continent_excluded :
    (∀ (mdf : List MergedRecord) (a b : Int) (n : Nat),
        get_top_emitters_with_geo (mdf.filter fun r => r.continent.isSome) a b n =
          get_top_emitters_with_geo mdf a b n) ∧
      (get_top_emitters exC9df 2008 2008 2).map (·.country) = ["X", "A"] ∧
      (get_top_emitters_with_geo exC9m 2008 2008 2).map (·.country) = ["A"] := by
  refine ⟨get_top_emitters_with_geo_ignores_missing, ?_, ?_⟩
  · have hf : filterYears exC9df 2008 2008 = exC9df := rfl
    have hk : groupKeys exC9df = ["A", "X"] := rfl
    have hmA : groupMean exC9df "A" = 1 := by
      unfold groupMean
      rw [show exC9df.filter (fun r => decide (r.country = "A")) =
        [⟨"A", "AAA", 2008, 1⟩] from rfl]
      norm_num
    have hmX : groupMean exC9df "X" = 100 := by
      unfold groupMean
      rw [show exC9df.filter (fun r => decide (r.country = "X")) =
        [⟨"X", "XXX", 2008, 100⟩] from rfl]
      norm_num
    rw [get_top_emitters_eq, hf, hk, List.map_cons, List.map_cons, List.map_nil, hmA, hmX]
    rfl
  · have hfm : filterYearsM exC9m 2008 2008 = exC9m := rfl
    have hkeys : geoGroupKeys exC9m = [("A", "AAA", "Asia")] := rfl
    have hm : geoGroupMean exC9m ("A", "AAA", "Asia") = 1 := by
      unfold geoGroupMean
      rw [show exC9m.filter (fun r => decide (geoKey r = some ("A", "AAA", "Asia"))) =
        [⟨"A", "AAA", 2008, 1, some "Asia"⟩] from rfl]
      norm_num
    rw [get_top_emitters_with_geo_eq, hfm, hkeys, List.map_cons, List.map_nil, hm]
    rfl

/-- C10: when every country name carries a single country code in the
emissions table and the geography table has at most one row per code, the
geo-aware aggregation of the merged table has at most one output row per
country, and wherever the two aggregators both report a country (for any
requested row counts) they report the same mean. -/
theorem C10_geo_refines_plain (df : List EmissionRecord) (geo : List GeoRecord)
    (a b : Int) (n m : Nat)
    (hc : ∀ r ∈ df, ∀ r₂ ∈ df, r.country = r₂.country → r.code = r₂.code)
    (hg : (geo.map GeoRecord.code).Nodup) :
    (get_top_emitters_with_geo (merge_datasets df geo) a b n).Pairwise
        (fun x y => x.country ≠ y.country) ∧
      ∀ x ∈ get_top_emitters_with_geo (merge_datasets df geo) a b n,
        ∀ y ∈ get_top_emitters df a b m,
          y.country = x.country → y.mean = x.mean := by
  rw [merge_eq_map_mergeRow hg]
  have hsub : ∀ r ∈ filterYears df a b, r ∈ df := fun r hr => List.mem_of_mem_filter hr
  have hkey : ∀ k : String × String × String,
      k ∈ ((filterYears df a b).map (mergeRow geo)).filterMap geoKey →
      ∃ r ∈ filterYears df a b, r.country = k.1 ∧ r.code = k.2.1 ∧
        matchCont geo r.code = some k.2.2 :=
    fun k hk => mem_filterMap_geoKey_map_mergeRow.mp hk
  have hkeyinj : ∀ k₁, k₁ ∈ ((filterYears df a b).map (mergeRow geo)).filterMap geoKey →
      ∀ k₂, k₂ ∈ ((filterYears df a b).map (mergeRow geo)).filterMap geoKey →
      k₁.1 = k₂.1 → k₁ = k₂ := by
    intro k₁ h₁ k₂ h₂ he
    obtain ⟨r₁, hr₁, e₁, f₁, g₁⟩ := hkey k₁ h₁
    obtain ⟨r₂, hr₂, e₂, f₂, g₂⟩ := hkey k₂ h₂
    have hcode : r₁.code = r₂.code :=
      hc r₁ (hsub r₁ hr₁) r₂ (hsub r₂ hr₂) (by rw [e₁, he, ← e₂])
    have h21 : k₁.2.1 = k₂.2.1 := by rw [← f₁, hcode, f₂]
    have h22 : k₁.2.2 = k₂.2.2 := by
      have hmc := g₁
      rw [hcode, g₂] at hmc
      exact (Option.some.inj hmc).symm
    rcases k₁ with ⟨a₁, b₁, c₁⟩
    rcases k₂ with ⟨a₂, b₂, c₂⟩
    simp only at he h21 h22
    rw [he, h21, h22]
  constructor
  · rw [get_top_emitters_with_geo_eq, filterYearsM_map_mergeRow]
    refine List.Pairwise.sublist (List.take_sublist n _) ?_
    have hperm := perm_sortBy geoAggLe
      (((geoGroupKeys ((filterYears df a b).map (mergeRow geo)))).map
        fun k => GeoAggRow.mk k.1 k.2.1 k.2.2
          (geoGroupMean ((filterYears df a b).map (mergeRow geo)) k))
    refine (List.Perm.pairwise_iff ?_ hperm).mpr ?_
    · intro u v huv
      exact Ne.symm huv
    · rw [List.pairwise_map]
      have hnd2 : (geoGroupKeys ((filterYears df a b).map (mergeRow geo))).Nodup :=
        (perm_sortBy geoKeyLe _).symm.nodup (nodup_dropDup _)
      refine hnd2.imp_of_mem ?_
      intro k₁ k₂ h1 h2 hne he
      exact hne (hkeyinj k₁ (mem_geoGroupKeys.mp h1) k₂ (mem_geoGroupKeys.mp h2) he)
  · intro x hx y hy hyx
    obtain ⟨hx1, hx2⟩ := mem_get_top_emitters_with_geo hx
    rw [filterYearsM_map_mergeRow] at hx1 hx2
    obtain ⟨r₀, hr₀, e₀, f₀, g₀⟩ := hkey _ ((mem_dropDup _ _).mp hx1)
    have hc2 : ∀ r ∈ filterYears df a b, r.country = x.country →
        r.code = x.code ∧ matchCont geo r.code = some x.continent := by
      intro r hr hcountry
      have hcode : r.code = r₀.code :=
        hc r (hsub r hr) r₀ (hsub r₀ hr₀) (hcountry.trans e₀.symm)
      constructor
      · rw [hcode]
        exact f₀
      · rw [hcode]
        exact g₀
    have hmean := geoGroupMean_map_mergeRow (k := (x.country, x.code, x.continent)) hc2
    have hy2 := (mem_get_top_emitters hy).2
    rw [hy2, hyx, hx2, hmean]

/-- Witness for C10: two countries with distinct codes, a one-row geography
table; both hypotheses hold by computation and the conclusion follows by the
theorem. -/
theorem C10_witness :
    (∀ r ∈ ([⟨"A", "AAA", 2008, 2⟩, ⟨"B", "BBB", 2008, 4⟩] : List EmissionRecord),
      ∀ r₂ ∈ ([⟨"A", "AAA", 2008, 2⟩, ⟨"B", "BBB", 2008, 4⟩] : List EmissionRecord),
        r.country = r₂.country → r.code = r₂.code) ∧
    (([⟨"Asia", "AAA"⟩] : List GeoRecord).map GeoRecord.code).Nodup ∧
    ((get_top_emitters_with_geo
        (merge_datasets [⟨"A", "AAA", 2008, 2⟩, ⟨"B", "BBB", 2008, 4⟩]
          [⟨"Asia", "AAA"⟩]) 2008 2008 2).Pairwise
        (fun x y => x.country ≠ y.country) ∧
      ∀ x ∈ get_top_emitters_with_geo
          (merge_datasets [⟨"A", "AAA", 2008, 2⟩, ⟨"B", "BBB", 2008, 4⟩]
            [⟨"Asia", "AAA"⟩]) 2008 2008 2,
        ∀ y ∈ get_top_emitters [⟨"A", "AAA", 2008, 2⟩, ⟨"B", "BBB", 2008, 4⟩] 2008 2008 2,
          y.country = x.country → y.mean = x.mean) :=
  ⟨by decide, by decide,
    C10_geo_refines_plain [⟨"A", "AAA", 2008, 2⟩, ⟨"B", "BBB", 2008, 4⟩]
      [⟨"Asia", "AAA"⟩] 2008 2008 2 2 (by decide) (by decide)⟩
